import Mathlib

/-!
Shallow embedding of `SampleDecodeRTSP.py` (PyNvCodec sample): the stream
prober `get_stream_params`, the per-stream decode worker `rtsp_client` with
its adaptive read-size loop, the Windows module-level DLL-path setup, and
the `__main__` driver.  External collaborators (the pipe fed by the ffmpeg
subprocess and the GPU decoder binding) are modelled as per-iteration
oracles; machine integers are `Nat`/`Int`.  CPython computes
`int(rt / fd)` through float division, which coincides with integer
division on the ranges modelled here; float rounding is out of scope.
-/

set_option autoImplicit false

namespace SampleDecodeRTSP

/-- Codec enum of the decoder binding (`nvc.CudaVideoCodec`), restricted to
the two members the sample uses. -/
inductive Codec where
  | H264
  | HEVC
deriving DecidableEq

/-- Pixel-format enum of the decoder binding (`nvc.PixelFormat`), restricted
to the two members the sample uses. -/
inductive PixelFormat where
  | NV12
  | YUV444
deriving DecidableEq

/-- Configuration passed to `nvc.PyNvDecoder(w, h, f, c, g)`: width, height,
pixel format, codec, GPU id. -/
structure DecoderCfg where
  width : Nat
  height : Nat
  format : PixelFormat
  codec : Codec
  gpu : Int
deriving DecidableEq

/-- Metadata of the first video stream of the input, as exposed by the
demuxing collaborator (`av.open(url).streams.video[0].codec_context`).
The framerate rational is kept as a numerator and denominator pair. -/
structure InStream where
  width : Nat
  height : Nat
  fr_num : Nat
  fr_den : Nat
  codec_name : String
  pix_fmt : String
deriving DecidableEq

/-- The dictionary built by `get_stream_params`: width, height, framerate,
codec enum, pixel-format enum. -/
structure StreamParams where
  width : Nat
  height : Nat
  fr_num : Nat
  fr_den : Nat
  codec : Codec
  format : PixelFormat
deriving DecidableEq

/-- `get_stream_params(url)`: classify the first video stream.  Codec names
other than "h264"/"hevc" raise `ValueError` with the codec name in the
message; with a supported codec, pixel formats other than
"yuv420p"/"yuv444p" raise `ValueError` with the format name in the message.
A raised `ValueError` is the `.error` branch carrying the exact message. -/
def get_stream_params (st : InStream) : Except String StreamParams :=
  let is_h264 : Bool := st.codec_name == "h264"
  let is_hevc : Bool := st.codec_name == "hevc"
  if !is_h264 && !is_hevc then
    .error ("Unsupported codec: " ++ st.codec_name ++
      ". Only H.264 and HEVC are supported in this sample.")
  else
    let codec : Codec := if is_h264 then .H264 else .HEVC
    let is_yuv420 : Bool := st.pix_fmt == "yuv420p"
    let is_yuv444 : Bool := st.pix_fmt == "yuv444p"
    if !is_yuv420 && !is_yuv444 then
      .error ("Unsupported pixel format: " ++ st.pix_fmt ++
        ". Only YUV420 and YUV444 are supported in this sample.")
    else
      .ok ⟨st.width, st.height, st.fr_num, st.fr_den, codec,
        if is_yuv420 then .NV12 else .YUV444⟩

/-- Codec name string recovered from the codec enum in `rtsp_client`
(the `if nvc.CudaVideoCodec.H264 == c` / `elif` chain). -/
def codecName : Codec → String
  | .H264 => "h264"
  | .HEVC => "hevc"

/-- Everything `rtsp_client` creates before entering the decode loop: the
probed parameters, the ffmpeg subprocess command line, and the decoder
configuration. -/
structure RtspSetup where
  params : StreamParams
  cmd : List String
  decoder : DecoderCfg
deriving DecidableEq

/-- Setup phase of `rtsp_client` (lines before the decode loop): probe the
stream, build the ffmpeg command, construct the decoder configuration.  If
`get_stream_params` raises, the error propagates and neither the subprocess
nor the decoder is created. -/
def rtsp_setup (url : String) (st : InStream) (gpu : Int) : Except String RtspSetup :=
  match get_stream_params st with
  | .error e => .error e
  | .ok p =>
    let cn := codecName p.codec
    let bsf_name := cn ++ "_mp4toannexb,dump_extra=all"
    .ok { params := p
        , cmd := ["ffmpeg", "-hide_banner", "-i", url, "-c:v", "copy",
                  "-bsf:v", bsf_name, "-f", cn, "pipe:1"]
        , decoder := ⟨p.width, p.height, p.format, p.codec, gpu⟩ }

/-- Mutable state of the decode loop: `read_size`, the running totals `rt`
(bytes read) and `fd` (frames decoded), plus the current decoder instance,
identified by its construction configuration and a generation counter that
increases at each respawn. -/
structure LoopState where
  read_size : Nat
  rt : Nat
  fd : Nat
  decoderCfg : DecoderCfg
  decoderGen : Nat
deriving DecidableEq

/-- State at loop entry: `read_size = 4096`, `rt = 0`, `fd = 0`, decoder
freshly constructed from `cfg`. -/
def initState (cfg : DecoderCfg) : LoopState :=
  { read_size := 4096, rt := 0, fd := 0, decoderCfg := cfg, decoderGen := 0 }

/-- Python runtime faults that can escape an iteration uncaught
(`ZeroDivisionError` from `int(rt / fd)` when `fd = 0`, or from
`fd % fps` when `fps = 0`). -/
inductive PyError where
  | zeroDivision
deriving DecidableEq

/-- Outcome of one call `nvdec.DecodeSurfaceFromPacket(enc_packet, pkt_data)`
as the loop observes it: either a normal return, with `surfEmpty` the value
of `surf.Empty()` and `bsl` the value `pkt_data.bsl` reported by the
external decoder, or an `nvc.HwResetException`.  `bsl` is the bitstream
data length the decoder associates with the returned surface; the decoder
buffers frames across packets, so it is not bounded by the size of the
packet submitted in this call. -/
inductive DecodeResult where
  | success (surfEmpty : Bool) (bsl : Nat)
  | hwReset
deriving DecidableEq

/-- Per-iteration behaviour of the external collaborators: `avail` is the
number of bytes the pipe can deliver to this read (the read returns
`min read_size avail` bytes), and `dec` is the decoder outcome if a decode
is attempted. -/
structure IterOracle where
  avail : Nat
  dec : DecodeResult
deriving DecidableEq

/-- The underflow-protection block at the top of the loop
(`if not read_size:`): when `read_size = 0`, recompute it as
`int(rt / fd)` and rescale the counters to `(read_size, 1)`; when `fd = 0`
this division raises `ZeroDivisionError`. -/
def underflowAdjust (s : LoopState) : Except PyError LoopState :=
  if s.read_size = 0 then
    if s.fd = 0 then .error .zeroDivision
    else
      let rs := s.rt / s.fd
      .ok { s with read_size := rs, rt := rs, fd := 1 }
  else .ok s

/-- Result of one loop iteration: continue with a new state (`decoded`
records whether a decode call was attempted, `logs` what the iteration
printed), exit the loop normally (the `break` on an empty read), or abort
on an uncaught `PyError` (`decoded` again records whether the decode call
happened before the fault). -/
inductive StepResult where
  | next (s : LoopState) (decoded : Bool) (logs : List String)
  | stop (logs : List String)
  | fault (e : PyError) (decoded : Bool)
deriving DecidableEq

/-- The diagnostic printed before the `break` on an empty pipe read. -/
def cantReadMsg : String := "Can\x27t read data from pipe"

/-- Body of one iteration after the underflow block, from the pipe read to
the end of the `try`/`except`: read `min read_size avail` bytes, `break`
with a diagnostic if zero, accumulate `rt`, decode, and on a non-empty
surface increment `fd`, tighten `read_size` to `bsl` when `bsl < read_size`,
and print the heartbeat `name` when `fd` is a multiple of
`fps = int(framerate)` (when `fps = 0`, `fd % fps` raises).  On
`HwResetException`, rebuild the decoder from the same `cfg` and continue. -/
def stepBody (fps : Nat) (name : String) (cfg : DecoderCfg)
    (s1 : LoopState) (o : IterOracle) : StepResult :=
  let n := min s1.read_size o.avail
  if n = 0 then
    .stop [cantReadMsg]
  else
    let s2 := { s1 with rt := s1.rt + n }
    match o.dec with
    | .hwReset =>
      .next { s2 with decoderCfg := cfg, decoderGen := s2.decoderGen + 1 } true []
    | .success surfEmpty bsl =>
      if surfEmpty then
        .next s2 true []
      else
        let fd1 := s2.fd + 1
        let rs1 := if bsl < s2.read_size then bsl else s2.read_size
        if fps = 0 then .fault .zeroDivision true
        else if fd1 % fps = 0 then
          .next { s2 with fd := fd1, read_size := rs1 } true [name]
        else
          .next { s2 with fd := fd1, read_size := rs1 } true []

/-- One full iteration of the `while True:` loop: the underflow block first
(its `ZeroDivisionError` aborts before any pipe read), then `stepBody`. -/
def step (fps : Nat) (name : String) (cfg : DecoderCfg)
    (s : LoopState) (o : IterOracle) : StepResult :=
  match underflowAdjust s with
  | .error e => .fault e false
  | .ok s1 => stepBody fps name cfg s1 o

/-- Outcome of running the loop against a finite list of iteration oracles:
either the oracles are exhausted with the loop still running, or the loop
exited normally via `break`, or an uncaught fault aborted it.  `decodes`
counts decode attempts, `logs` collects everything printed, in order. -/
inductive RunOutcome where
  | more (s : LoopState) (decodes : Nat) (logs : List String)
  | stopped (decodes : Nat) (logs : List String)
  | fault (e : PyError) (decodes : Nat) (logs : List String)
deriving DecidableEq

/-- Iterate `step` over a list of per-iteration oracles. -/
def run (fps : Nat) (name : String) (cfg : DecoderCfg) :
    LoopState → List IterOracle → RunOutcome
  | s, [] => .more s 0 []
  | s, o :: os =>
    match step fps name cfg s o with
    | .fault e d => .fault e (if d then 1 else 0) []
    | .stop logs => .stopped 0 logs
    | .next s' d logs =>
      match run fps name cfg s' os with
      | .more s2 k ls => .more s2 ((if d then 1 else 0) + k) (logs ++ ls)
      | .stopped k ls => .stopped ((if d then 1 else 0) + k) (logs ++ ls)
      | .fault e k ls => .fault e ((if d then 1 else 0) + k) (logs ++ ls)

/-- States of the decode loop reachable from loop entry through continuing
iterations. -/
inductive Reachable (fps : Nat) (name : String) (cfg : DecoderCfg) : LoopState → Prop where
  | init : Reachable fps name cfg (initState cfg)
  | next {s s' : LoopState} {o : IterOracle} {d : Bool} {logs : List String} :
      Reachable fps name cfg s → step fps name cfg s o = .next s' d logs →
      Reachable fps name cfg s'

/-- Whether the list `sub` occurs at the head of `l`. -/
def listLeads : List Char → List Char → Bool
  | [], _ => true
  | _ :: _, [] => false
  | a :: as, b :: bs => a == b && listLeads as bs

/-- Whether the list `sub` occurs contiguously anywhere inside `l`. -/
def listInside (sub : List Char) : List Char → Bool
  | [] => listLeads sub []
  | b :: bs => listLeads sub (b :: bs) || listInside sub bs

/-- Whether the string `sub` occurs contiguously inside `s` ("the error
message carries the name"). -/
def strContains (sub s : String) : Bool := listInside sub.data s.data

/-- Outcome of the module-level Windows setup block (`if os.name == 'nt':`):
either it completes, recording the directories passed to
`os.add_dll_directory`; or it hits an explicit `exit(code)` after printing
`stderrMsgs` to standard error; or `os.environ[varName]` raises an uncaught
`KeyError` because the variable is absent. -/
inductive SetupOutcome where
  | ok (dllDirs : List String)
  | exitFatal (code : Nat) (stderrMsgs : List String)
  | uncaughtKeyError (varName : String)
deriving DecidableEq

/-- The module-level Windows setup: read `CUDA_PATH` (absent raises
`KeyError`; empty prints two messages to stderr and exits 1; otherwise the
directory is registered), then read `PATH` (absent raises `KeyError`; empty
prints one message to stderr and exits 1; otherwise each
semicolon-separated entry that is a directory is registered).  `env` is the
process environment, `isdir` the `os.path.isdir` test. -/
def winSetup (env : String → Option String) (isdir : String → Bool) : SetupOutcome :=
  match env "CUDA_PATH" with
  | none => .uncaughtKeyError "CUDA_PATH"
  | some cuda_path =>
    if cuda_path = "" then
      .exitFatal 1 ["CUDA_PATH environment variable is not set.",
                    "Can\x27t set CUDA DLLs search path."]
    else
      match env "PATH" with
      | none => .uncaughtKeyError "PATH"
      | some sys_path =>
        if sys_path = "" then
          .exitFatal 1 ["PATH environment variable is not set."]
        else
          .ok (cuda_path :: (sys_path.splitOn ";").filter (fun p => isdir p))

/-- Exit status of the process as determined by the setup outcome: an
explicit `exit(code)` gives `code`; an uncaught exception makes the Python
interpreter terminate with status 1; `none` means execution continues into
the rest of the module. -/
def setupExitStatus : SetupOutcome → Option Nat
  | .ok _ => none
  | .exitFatal c _ => some c
  | .uncaughtKeyError _ => some 1

/-- Whether the fatal setup outcome is reported on standard error: the
explicit branches print their messages with `file=sys.stderr`, and an
uncaught exception's traceback is written to standard error by the
interpreter. -/
def setupReportsStderr : SetupOutcome → Bool
  | .ok _ => false
  | .exitFatal _ msgs => !msgs.isEmpty
  | .uncaughtKeyError _ => true

/-- Fate of the process at module load: on the host platform
(`os.name == 'nt'`) a fatal setup outcome halts the process before any of
the decoding code is reached; otherwise execution enters the rest of the
module (imports, `__main__`). -/
inductive ModuleFate where
  | haltedBeforeDecode (code : Nat) (stderrReported : Bool)
  | enteredMain
deriving DecidableEq

/-- Module load: the Windows setup block guarded by `os.name == 'nt'`,
before any decoding code runs. -/
def moduleStart (osname : String) (env : String → Option String)
    (isdir : String → Bool) : ModuleFate :=
  if osname = "nt" then
    match setupExitStatus (winSetup env isdir) with
    | some c => .haltedBeforeDecode c (setupReportsStderr (winSetup env isdir))
    | none => .enteredMain
  else .enteredMain

/-- One decode worker as launched by the driver:
`Process(target=rtsp_client, args=(url, str(uuid.uuid4()), gpuID))`. -/
structure Worker where
  url : String
  tag : String
  gpu : Int
deriving DecidableEq

/-- Outcome of the `__main__` block: the usage exit when fewer than two
positional arguments follow the script name; an uncaught `ValueError` when
`int(sys.argv[1])` fails; or a run that spawns `spawned` workers in order
and joins every worker in `joined` before returning. -/
inductive DriverOutcome where
  | usageExit (code : Nat) (msg : String)
  | badGpuArg (arg : String)
  | ran (spawned : List Worker) (joined : List Worker)
deriving DecidableEq

/-- The `__main__` driver: `argv` is `sys.argv` (script name first);
`uuid_seq n` is the string `str(uuid.uuid4())` generated for the `n`-th
worker, and `pyInt` is the Python builtin `int` conversion (`none` models
the `ValueError` it raises on a non-numeric argument).  With fewer than 3
arguments it prints the usage line and exits 1; otherwise it parses the
GPU id, builds one worker per URL tagged with a freshly generated
identifier, starts them all, and joins them all. -/
def mainDriver (uuid_seq : Nat → String) (pyInt : String → Option Int)
    (argv : List String) : DriverOutcome :=
  if argv.length < 3 then .usageExit 1 "Provide gpu ID and input URL(s)."
  else
    let arg1 := argv.getD 1 ""
    match pyInt arg1 with
    | none => .badGpuArg arg1
    | some g =>
      let urls := argv.drop 2
      let workers := urls.enum.map (fun p => Worker.mk p.2 (uuid_seq p.1) g)
      .ran workers workers

/-- A concrete decoder configuration used to instantiate theorems on
concrete inputs. -/
def demoCfg : DecoderCfg := ⟨1920, 1080, .NV12, .H264, 0⟩

theorem adjust_of_read_size_ne_zero {s : LoopState} (h : s.read_size ≠ 0) :
    underflowAdjust s = .ok s := by
  unfold underflowAdjust
  simp [h]

theorem adjust_preserves_inv {s s1 : LoopState} (h : underflowAdjust s = .ok s1)
    (hs : s.read_size = 0 → 1 ≤ s.fd) : s1.read_size = 0 → 1 ≤ s1.fd := by
  unfold underflowAdjust at h
  by_cases hr : s.read_size = 0
  · rw [if_pos hr] at h
    by_cases hf : s.fd = 0
    · rw [if_pos hf] at h
      exact absurd h (by simp)
    · rw [if_neg hf] at h
      cases h
      intro
      exact Nat.le_refl 1
  · rw [if_neg hr] at h
    cases h
    exact hs

theorem stepBody_preserves_inv {fps : Nat} {name : String} {cfg : DecoderCfg}
    {s1 s' : LoopState} {o : IterOracle} {d : Bool} {logs : List String}
    (h : stepBody fps name cfg s1 o = .next s' d logs)
    (hs : s1.read_size = 0 → 1 ≤ s1.fd) : s'.read_size = 0 → 1 ≤ s'.fd := by
  unfold stepBody at h
  by_cases hn : min s1.read_size o.avail = 0
  · rw [if_pos hn] at h
    exact absurd h (by simp)
  · rw [if_neg hn] at h
    rcases o with ⟨av, dec⟩
    rcases dec with ⟨se, bsl⟩ | _
    · dsimp at h
      cases se
      · dsimp at h
        by_cases hf : fps = 0
        · rw [if_pos hf] at h
          exact absurd h (by simp)
        · rw [if_neg hf] at h
          by_cases hb : (s1.fd + 1) % fps = 0
          · rw [if_pos hb] at h
            cases h
            intro
            exact Nat.le_add_left 1 s1.fd
          · rw [if_neg hb] at h
            cases h
            intro
            exact Nat.le_add_left 1 s1.fd
      · dsimp at h
        cases h
        exact hs
    · dsimp at h
      cases h
      exact hs

/-- C1: in any loop state with `read_size = 0` and `fd > 0`, the iteration
first recomputes `read_size` as the integer division `rt / fd` and resets
the counters to `rt = read_size`, `fd = 1`, without a division-by-zero
fault, and only then proceeds to the pipe read (the remainder of the
iteration runs `stepBody` on the adjusted state). -/
theorem underflow_recovery (fps : Nat) (name : String) (cfg : DecoderCfg)
    (s : LoopState) (o : IterOracle) (h0 : s.read_size = 0) (h1 : 0 < s.fd) :
    underflowAdjust s = .ok { s with read_size := s.rt / s.fd, rt := s.rt / s.fd, fd := 1 } ∧
    step fps name cfg s o =
      stepBody fps name cfg { s with read_size := s.rt / s.fd, rt := s.rt / s.fd, fd := 1 } o := by
  have hf : s.fd ≠ 0 := Nat.pos_iff_ne_zero.mp h1
  have hadj : underflowAdjust s =
      .ok { s with read_size := s.rt / s.fd, rt := s.rt / s.fd, fd := 1 } := by
    unfold underflowAdjust
    rw [if_pos h0, if_neg hf]
  refine ⟨hadj, ?_⟩
  unfold step
  rw [hadj]

/-- Witness for C1 at a concrete state: `read_size = 0`, `rt = 100`,
`fd = 3` recomputes `read_size = 33` and resets the counters. -/
theorem underflow_recovery_witness :
    underflowAdjust ⟨0, 100, 3, demoCfg, 0⟩ = .ok ⟨33, 33, 1, demoCfg, 0⟩ ∧
    step 30 "w" demoCfg ⟨0, 100, 3, demoCfg, 0⟩ ⟨10, .hwReset⟩ =
      stepBody 30 "w" demoCfg ⟨33, 33, 1, demoCfg, 0⟩ ⟨10, .hwReset⟩ :=
  underflow_recovery 30 "w" demoCfg ⟨0, 100, 3, demoCfg, 0⟩ ⟨10, .hwReset⟩ rfl (by decide)

/-- C3: when the decode call raises the hardware-reset exception, the
iteration neither stops nor faults: it continues with the decoder rebuilt
fresh (generation incremented) from the identical configuration `cfg`
(width, height, pixel format, codec, GPU id), and the handler leaves
`read_size` and `fd` exactly as they were at the point of the fault; `rt`
carries only the bytes-read accounting that happened before the decode
call. -/
theorem hw_reset_recovery (fps : Nat) (name : String) (cfg : DecoderCfg)
    (s s1 : LoopState) (o : IterOracle)
    (hadj : underflowAdjust s = .ok s1) (hdec : o.dec = .hwReset)
    (hn : 0 < min s1.read_size o.avail) :
    step fps name cfg s o =
      .next { s1 with rt := s1.rt + min s1.read_size o.avail,
                      decoderCfg := cfg, decoderGen := s1.decoderGen + 1 } true [] := by
  have hne : min s1.read_size o.avail ≠ 0 := Nat.pos_iff_ne_zero.mp hn
  unfold step
  rw [hadj]
  simp [stepBody, hdec, hne]

/-- Witness for C3 at a concrete state: the respawned decoder has the same
configuration and a bumped generation; `read_size` and `fd` are untouched. -/
theorem hw_reset_recovery_witness :
    step 30 "w" demoCfg ⟨2048, 10, 5, demoCfg, 7⟩ ⟨4096, .hwReset⟩ =
      .next ⟨2048, 2058, 5, demoCfg, 8⟩ true [] :=
  hw_reset_recovery 30 "w" demoCfg ⟨2048, 10, 5, demoCfg, 7⟩ ⟨2048, 10, 5, demoCfg, 7⟩
    ⟨4096, .hwReset⟩ rfl rfl (by decide)

/-- C5: an iteration exits the loop normally exactly when the pipe read
returns zero bytes, and in that case the single diagnostic line is printed;
no other iteration outcome is a normal exit. -/
theorem normal_termination_iff_empty_read (fps : Nat) (name : String) (cfg : DecoderCfg)
    (s : LoopState) (o : IterOracle) (logs : List String) :
    step fps name cfg s o = .stop logs ↔
      (logs = [cantReadMsg] ∧ ∃ s1, underflowAdjust s = .ok s1 ∧ min s1.read_size o.avail = 0) := by
  rcases o with ⟨av, dec⟩
  constructor
  · intro h
    unfold step at h
    cases hadj : underflowAdjust s with
    | error e =>
      rw [hadj] at h
      exact absurd h (by simp)
    | ok s1 =>
      rw [hadj] at h
      simp only [stepBody] at h
      by_cases hn : min s1.read_size av = 0
      · rw [if_pos hn] at h
        cases h
        exact ⟨rfl, s1, rfl, hn⟩
      · rw [if_neg hn] at h
        rcases dec with ⟨se, bsl⟩ | _
        · cases se
          · dsimp only at h
            split_ifs at h
          · exact absurd h (by simp)
        · exact absurd h (by simp)
  · rintro ⟨rfl, s1, hadj, hn⟩
    unfold step
    rw [hadj]
    simp only [stepBody]
    rw [if_pos hn]

/-- Witness for C5: a pipe that can deliver no bytes makes the iteration
stop with the diagnostic line. -/
theorem normal_termination_iff_empty_read_witness :
    step 30 "w" demoCfg (initState demoCfg) ⟨0, .hwReset⟩ = .stop [cantReadMsg] :=
  (normal_termination_iff_empty_read 30 "w" demoCfg (initState demoCfg) ⟨0, .hwReset⟩
    [cantReadMsg]).mpr ⟨rfl, initState demoCfg, rfl, by decide⟩

/-- C10: an iteration whose decode call returns an empty surface changes
neither `fd` nor `read_size` nor the decoder, prints nothing, and
increases `rt` by exactly the number of bytes read from the pipe. -/
theorem empty_surface_frame_condition (fps : Nat) (name : String) (cfg : DecoderCfg)
    (s : LoopState) (o : IterOracle) (bsl : Nat)
    (hrs : s.read_size ≠ 0) (hdec : o.dec = .success true bsl)
    (hn : 0 < min s.read_size o.avail) :
    step fps name cfg s o = .next { s with rt := s.rt + min s.read_size o.avail } true [] := by
  have hne : min s.read_size o.avail ≠ 0 := Nat.pos_iff_ne_zero.mp hn
  unfold step
  rw [adjust_of_read_size_ne_zero hrs]
  simp [stepBody, hdec, hne]

/-- Witness for C10 at a concrete state: an empty-surface decode after a
1000-byte read leaves everything but `rt` unchanged. -/
theorem empty_surface_frame_condition_witness :
    step 30 "w" demoCfg ⟨2048, 10, 5, demoCfg, 0⟩ ⟨1000, .success true 50⟩ =
      .next ⟨2048, 1010, 5, demoCfg, 0⟩ true [] :=
  empty_surface_frame_condition 30 "w" demoCfg ⟨2048, 10, 5, demoCfg, 0⟩
    ⟨1000, .success true 50⟩ 50 (by decide) rfl (by decide)

/-- C9: in every reachable loop state, `read_size = 0` implies `fd ≥ 1`
(the initial `read_size` is 4096 and `read_size` is only lowered after `fd`
has been incremented, while the underflow reset itself leaves `fd = 1`);
consequently the underflow recomputation `rt / fd` never divides by zero:
`underflowAdjust` succeeds on every reachable state. -/
theorem underflow_division_invariant (fps : Nat) (name : String) (cfg : DecoderCfg)
    (s : LoopState) (h : Reachable fps name cfg s) :
    (s.read_size = 0 → 1 ≤ s.fd) ∧ ∃ s1, underflowAdjust s = .ok s1 := by
  have hinv : s.read_size = 0 → 1 ≤ s.fd := by
    induction h with
    | init =>
      intro h0
      exact absurd h0 (by simp [initState])
    | next hr hstep ih =>
      rename_i s s' o d logs
      unfold step at hstep
      cases hadj : underflowAdjust s with
      | error e =>
        rw [hadj] at hstep
        exact absurd hstep (by simp)
      | ok s1 =>
        rw [hadj] at hstep
        exact stepBody_preserves_inv hstep (adjust_preserves_inv hadj ih)
  refine ⟨hinv, ?_⟩
  unfold underflowAdjust
  by_cases hr : s.read_size = 0
  · have hf : s.fd ≠ 0 := Nat.pos_iff_ne_zero.mp (hinv hr)
    rw [if_pos hr, if_neg hf]
    exact ⟨_, rfl⟩
  · rw [if_neg hr]
    exact ⟨_, rfl⟩

/-- Witness for C9: the state reached from loop entry by one successful
decode that consumed 0 bytes has `read_size = 0` and `fd = 1`, and the
underflow adjustment succeeds on it. -/
theorem underflow_division_invariant_witness :
    (1 : Nat) ≤ LoopState.fd ⟨0, 4096, 1, demoCfg, 0⟩ ∧
    ∃ s1, underflowAdjust ⟨0, 4096, 1, demoCfg, 0⟩ = .ok s1 :=
  have hreach : Reachable 30 "w" demoCfg ⟨0, 4096, 1, demoCfg, 0⟩ :=
    @Reachable.next 30 "w" demoCfg (initState demoCfg) ⟨0, 4096, 1, demoCfg, 0⟩
      ⟨4096, .success false 0⟩ true [] Reachable.init (by decide)
  ⟨(underflow_division_invariant 30 "w" demoCfg _ hreach).1 rfl,
   (underflow_division_invariant 30 "w" demoCfg _ hreach).2⟩

/-- C2 as stated fails on the code: a run of one successful decode that
reports `bsl = 5000` while the current read size is 4096 leaves the next
read size at 4096, not 5000, because the loop only lowers `read_size`
(`if pkt_data.bsl < read_size`). -/
theorem read_size_tightening_cex :
    step 30 "w" demoCfg (initState demoCfg) ⟨4096, .success false 5000⟩ =
      .next ⟨4096, 4096, 1, demoCfg, 0⟩ true [] ∧ (4096 : Nat) ≠ 5000 := by
  constructor
  · decide
  · decide

theorem ifLt_eq_min (b r : Nat) : (if b < r then b else r) = min r b := by
  rcases Nat.lt_or_ge b r with h | h
  · rw [if_pos h, min_eq_right (Nat.le_of_lt h)]
  · rw [if_neg (Nat.not_lt.mpr h), min_eq_left h]

theorem step_success_full (fps : Nat) (name : String) (cfg : DecoderCfg)
    (s : LoopState) (o : IterOracle) (k : Nat)
    (hrs : s.read_size ≠ 0) (hdec : o.dec = .success false k)
    (hn : min s.read_size o.avail ≠ 0) (hfps : fps ≠ 0) :
    step fps name cfg s o =
      .next { s with rt := s.rt + min s.read_size o.avail, fd := s.fd + 1,
                     read_size := min s.read_size k }
        true (if (s.fd + 1) % fps = 0 then [name] else []) := by
  unfold step
  rw [adjust_of_read_size_ne_zero hrs]
  simp only [stepBody, hdec]
  rw [if_neg hn, if_neg Bool.false_ne_true]
  rw [ifLt_eq_min, if_neg hfps]
  split_ifs <;> rfl

theorem run_consec (fps : Nat) (name : String) (cfg : DecoderCfg) (k : Nat)
    (hfps : 0 < fps) (hk : 0 < k) :
    ∀ (os : List IterOracle) (s : LoopState), 0 < s.read_size →
      (∀ o ∈ os, 0 < o.avail ∧ o.dec = .success false k) →
      ∃ s' logs, run fps name cfg s os = .more s' os.length logs ∧
        s'.read_size = (if os.isEmpty then s.read_size else min s.read_size k) ∧
        0 < s'.read_size := by
  intro os
  induction os with
  | nil =>
    intro s hs _
    exact ⟨s, [], rfl, by simp, hs⟩
  | cons o os ih =>
    intro s hs hos
    obtain ⟨hav, hdec⟩ := hos o (List.mem_cons_self o os)
    have hn : 0 < min s.read_size o.avail := lt_min hs hav
    have hstep := step_success_full fps name cfg s o k (Nat.pos_iff_ne_zero.mp hs) hdec
      (Nat.pos_iff_ne_zero.mp hn) (Nat.pos_iff_ne_zero.mp hfps)
    have hrs1 : 0 < min s.read_size k := lt_min hs hk
    obtain ⟨s', logs', hrun, hread, hpos⟩ :=
      ih { s with rt := s.rt + min s.read_size o.avail, fd := s.fd + 1,
                  read_size := min s.read_size k }
        hrs1 (fun o2 h2 => hos o2 (List.mem_cons_of_mem o h2))
    refine ⟨s', (if (s.fd + 1) % fps = 0 then [name] else []) ++ logs', ?_, ?_, hpos⟩
    · simp only [run, hstep, hrun]
      have hlen : (1 : Nat) + os.length = os.length + 1 := Nat.add_comm 1 os.length
      simp [hlen]
    · rcases os with _ | ⟨o2, os⟩
      · simpa using hread
      · simp only [List.isEmpty_cons, if_neg] at hread ⊢
        simp only [hread]
        simp [min_assoc]

/-- C2 amended: after `N ≥ 1` consecutive successful decodes each
reporting `bsl = k`, the next read size equals `min r k`, where `r` is the
read size before the run — in particular it equals `k` exactly when
`k ≤ r`, because the loop only ever lowers the read size — and across any
iteration without underflow recomputation the read size never increases. -/
theorem read_size_tightening_amended :
    (∀ (fps : Nat) (name : String) (cfg : DecoderCfg) (k : Nat) (s : LoopState)
       (os : List IterOracle), 0 < fps → 0 < k → 0 < s.read_size → os ≠ [] →
       (∀ o ∈ os, 0 < o.avail ∧ o.dec = .success false k) →
       ∃ s' logs, run fps name cfg s os = .more s' os.length logs ∧
         s'.read_size = min s.read_size k) ∧
    (∀ (fps : Nat) (name : String) (cfg : DecoderCfg) (s : LoopState) (o : IterOracle)
       (s' : LoopState) (d : Bool) (logs : List String), s.read_size ≠ 0 →
       step fps name cfg s o = .next s' d logs → s'.read_size ≤ s.read_size) := by
  constructor
  · intro fps name cfg k s os hfps hk hs hne hos
    obtain ⟨s', logs, hrun, hread, _⟩ := run_consec fps name cfg k hfps hk os s hs hos
    refine ⟨s', logs, hrun, ?_⟩
    rw [hread, if_neg (by simpa using hne)]
  · intro fps name cfg s o s' d logs hrs hstep
    unfold step at hstep
    rw [adjust_of_read_size_ne_zero hrs] at hstep
    rcases hdec : o.dec with ⟨se, bsl⟩ | _
    · cases se
      · simp only [stepBody, hdec] at hstep
        by_cases hn : min s.read_size o.avail = 0
        · rw [if_pos hn] at hstep
          exact absurd hstep (by simp)
        · rw [if_neg hn, if_neg Bool.false_ne_true, ifLt_eq_min] at hstep
          by_cases hf : fps = 0
          · rw [if_pos hf] at hstep
            exact absurd hstep (by simp)
          · rw [if_neg hf] at hstep
            by_cases hb : (s.fd + 1) % fps = 0
            · rw [if_pos hb] at hstep
              cases hstep
              exact min_le_left s.read_size bsl
            · rw [if_neg hb] at hstep
              cases hstep
              exact min_le_left s.read_size bsl
      · simp only [stepBody, hdec] at hstep
        by_cases hn : min s.read_size o.avail = 0
        · rw [if_pos hn] at hstep
          exact absurd hstep (by simp)
        · rw [if_neg hn, if_pos trivial] at hstep
          cases hstep
          exact Nat.le_refl _
    · simp only [stepBody, hdec] at hstep
      by_cases hn : min s.read_size o.avail = 0
      · rw [if_pos hn] at hstep
        exact absurd hstep (by simp)
      · rw [if_neg hn] at hstep
        cases hstep
        exact Nat.le_refl _

/-- Witness for C2 amended: one successful decode reporting `bsl = 1024`
below the current read size 4096 makes the next read size
`min 4096 1024 = 1024`. -/
theorem read_size_tightening_amended_witness :
    ∃ s' logs, run 30 "w" demoCfg (initState demoCfg) [⟨4096, .success false 1024⟩] =
      .more s' 1 logs ∧ s'.read_size = min 4096 1024 :=
  read_size_tightening_amended.1 30 "w" demoCfg 1024 (initState demoCfg)
    [⟨4096, .success false 1024⟩] (by decide) (by decide) (by decide) (by decide)
    (by decide)

theorem step_empty_read (fps : Nat) (name : String) (cfg : DecoderCfg)
    (s : LoopState) (d : DecodeResult) (h : s.read_size ≠ 0 ∨ s.fd ≠ 0) :
    step fps name cfg s ⟨0, d⟩ = .stop [cantReadMsg] := by
  unfold step
  by_cases hr : s.read_size = 0
  · have hf : s.fd ≠ 0 := by
      rcases h with h | h
      · exact absurd hr h
      · exact h
    simp [underflowAdjust, hr, hf, stepBody]
  · simp [underflowAdjust, hr, stepBody]

theorem step_init (fps : Nat) (name : String) (cfg : DecoderCfg) (d1 : DecodeResult)
    (hfps : fps ≠ 0) :
    ∃ s' hb, step fps name cfg (initState cfg) ⟨4096, d1⟩ = .next s' true hb ∧
      (s'.read_size ≠ 0 ∨ s'.fd ≠ 0) := by
  rcases d1 with ⟨se, bsl⟩ | _
  · cases se
    · refine ⟨_, _, step_success_full fps name cfg (initState cfg) ⟨4096, .success false bsl⟩
        bsl (by simp [initState]) rfl (by simp [initState]) hfps, Or.inr (by simp [initState])⟩
    · refine ⟨{ initState cfg with rt := 4096 }, [], ?_, Or.inl (by simp [initState])⟩
      unfold step
      rw [adjust_of_read_size_ne_zero (by simp [initState])]
      simp [stepBody, initState]
  · refine ⟨{ initState cfg with rt := 4096, decoderCfg := cfg, decoderGen := 1 }, [], ?_,
      Or.inl (by simp [initState])⟩
    unfold step
    rw [adjust_of_read_size_ne_zero (by simp [initState])]
    simp [stepBody, initState]

/-- C6: against a pipe that delivers one 4096-byte chunk and then nothing,
the worker (entering the loop with its initial read size 4096) reads the
whole chunk, performs exactly one decode attempt — whatever its outcome —
and on the next iteration reads zero bytes, prints the diagnostic line and
terminates the loop normally. -/
theorem scenario_a (fps : Nat) (name : String) (cfg : DecoderCfg)
    (d1 d2 : DecodeResult) (hfps : 0 < fps) :
    ∃ pre, run fps name cfg (initState cfg) [⟨4096, d1⟩, ⟨0, d2⟩] =
      .stopped 1 (pre ++ [cantReadMsg]) := by
  obtain ⟨s', hb, h1, h2⟩ := step_init fps name cfg d1 (Nat.pos_iff_ne_zero.mp hfps)
  refine ⟨hb, ?_⟩
  simp [run, h1, step_empty_read fps name cfg s' d2 h2]

/-- Witness for C6 at concrete inputs: one successful decode consuming 100
bytes, then the closed pipe stops the loop after exactly one decode
attempt. -/
theorem scenario_a_witness :
    (0 : Nat) < 30 ∧
    ∃ pre, run 30 "w" demoCfg (initState demoCfg)
      [⟨4096, .success false 100⟩, ⟨0, .hwReset⟩] = .stopped 1 (pre ++ [cantReadMsg]) :=
  ⟨by decide, scenario_a 30 "w" demoCfg (.success false 100) .hwReset (by decide)⟩

theorem listLeads_self_append : ∀ (b c : List Char), listLeads b (b ++ c) = true
  | [], _ => rfl
  | a :: as, c => by
    simp only [List.cons_append, listLeads, beq_self_eq_true, Bool.true_and]
    exact listLeads_self_append as c

theorem listInside_of_leads : ∀ (l b : List Char), listLeads b l = true → listInside b l = true
  | [], b, h => by
    cases b with
    | nil => rfl
    | cons x bs => exact absurd h (by simp [listLeads])
  | x :: xs, b, h => by simp [listInside, h]

theorem listInside_cons (b : List Char) (x : Char) (l : List Char)
    (h : listInside b l = true) : listInside b (x :: l) = true := by
  simp [listInside, h]

theorem listInside_append (b : List Char) :
    ∀ (a c : List Char), listInside b (a ++ (b ++ c)) = true := by
  intro a
  induction a with
  | nil =>
    intro c
    exact listInside_of_leads (b ++ c) b (listLeads_self_append b c)
  | cons x as ih =>
    intro c
    exact listInside_cons b x (as ++ (b ++ c)) (ih c)

theorem strContains_append (a b c : String) : strContains b (a ++ b ++ c) = true := by
  unfold strContains
  rw [String.data_append, String.data_append, List.append_assoc]
  exact listInside_append b.data a.data c.data

/-- C4 as stated fails on the code for a stream whose codec and pixel
format are both unsupported: probing codec "vp9" with pixel format "gray"
raises the unsupported-codec error, whose message does not carry the
pixel-format name, because the codec check precedes the pixel-format
check. -/
theorem stream_params_classification_cex :
    get_stream_params ⟨1920, 1080, 30, 1, "vp9", "gray"⟩ =
      .error "Unsupported codec: vp9. Only H.264 and HEVC are supported in this sample." ∧
    strContains "gray"
      "Unsupported codec: vp9. Only H.264 and HEVC are supported in this sample." = false := by
  constructor
  · rfl
  · rfl

/-- C4 amended: the prober maps codec "h264" to the H264 enum and "hevc" to
HEVC, and pixel format "yuv420p" to NV12 and "yuv444p" to YUV444; any other
codec name fails with an error carrying the codec name; with a supported
codec, any other pixel-format name fails with an error carrying the format
name (when the codec is also unsupported, the codec error is raised
instead); and on any failure no further action is taken — neither the
ffmpeg subprocess command nor the decoder configuration is built. -/
theorem stream_params_classification_amended (st : InStream) :
    ((st.codec_name = "h264" ∨ st.codec_name = "hevc") →
     (st.pix_fmt = "yuv420p" ∨ st.pix_fmt = "yuv444p") →
     get_stream_params st = .ok ⟨st.width, st.height, st.fr_num, st.fr_den,
       (if st.codec_name = "h264" then .H264 else .HEVC),
       (if st.pix_fmt = "yuv420p" then .NV12 else .YUV444)⟩) ∧
    (st.codec_name ≠ "h264" → st.codec_name ≠ "hevc" →
     get_stream_params st = .error ("Unsupported codec: " ++ st.codec_name ++
       ". Only H.264 and HEVC are supported in this sample.") ∧
     strContains st.codec_name ("Unsupported codec: " ++ st.codec_name ++
       ". Only H.264 and HEVC are supported in this sample.") = true) ∧
    ((st.codec_name = "h264" ∨ st.codec_name = "hevc") →
     st.pix_fmt ≠ "yuv420p" → st.pix_fmt ≠ "yuv444p" →
     get_stream_params st = .error ("Unsupported pixel format: " ++ st.pix_fmt ++
       ". Only YUV420 and YUV444 are supported in this sample.") ∧
     strContains st.pix_fmt ("Unsupported pixel format: " ++ st.pix_fmt ++
       ". Only YUV420 and YUV444 are supported in this sample.") = true) ∧
    (∀ e, get_stream_params st = .error e →
     ∀ url gpu, rtsp_setup url st gpu = .error e) := by
  refine ⟨?_, ?_, ?_, ?_⟩
  · rintro (hc | hc) (hp | hp) <;>
      simp [get_stream_params, hc, hp]
  · intro hc1 hc2
    have h1 : (st.codec_name == "h264") = false := beq_eq_false_iff_ne.mpr hc1
    have h2 : (st.codec_name == "hevc") = false := beq_eq_false_iff_ne.mpr hc2
    refine ⟨?_, strContains_append "Unsupported codec: " st.codec_name
      ". Only H.264 and HEVC are supported in this sample."⟩
    simp [get_stream_params, h1, h2]
  · intro hc hp1 hp2
    have h1 : (st.pix_fmt == "yuv420p") = false := beq_eq_false_iff_ne.mpr hp1
    have h2 : (st.pix_fmt == "yuv444p") = false := beq_eq_false_iff_ne.mpr hp2
    refine ⟨?_, strContains_append "Unsupported pixel format: " st.pix_fmt
      ". Only YUV420 and YUV444 are supported in this sample."⟩
    rcases hc with hc | hc <;> simp [get_stream_params, hc, h1, h2]
  · intro e he url gpu
    simp [rtsp_setup, he]

/-- Witness for C4 amended: codec "h264" with pixel format "yuv444p" probes
to the H264 and YUV444 enums. -/
theorem stream_params_classification_amended_witness :
    get_stream_params ⟨1280, 720, 25, 1, "h264", "yuv444p"⟩ =
      .ok ⟨1280, 720, 25, 1, .H264, .YUV444⟩ :=
  have h := (stream_params_classification_amended
    ⟨1280, 720, 25, 1, "h264", "yuv444p"⟩).1 (Or.inl rfl) (Or.inr rfl)
  h

/-- C7: on the host platform (`os.name == 'nt'`), a missing required
environment variable is fatal before any decoding starts: with `CUDA_PATH`
absent (uncaught `KeyError`) or empty (explicit branch), or with
`CUDA_PATH` usable but `PATH` absent or empty, the process halts with exit
status 1 and the failure reported on standard error, never reaching the
decoding code. -/
theorem missing_env_fatal (env : String → Option String) (isdir : String → Bool) :
    ((env "CUDA_PATH" = none ∨ env "CUDA_PATH" = some "") →
      moduleStart "nt" env isdir = .haltedBeforeDecode 1 true) ∧
    (∀ c, env "CUDA_PATH" = some c → c ≠ "" →
      (env "PATH" = none ∨ env "PATH" = some "") →
      moduleStart "nt" env isdir = .haltedBeforeDecode 1 true) := by
  constructor
  · rintro (h | h) <;>
      simp [moduleStart, winSetup, h, setupExitStatus, setupReportsStderr]
  · rintro c hc hcne (h | h) <;>
      simp [moduleStart, winSetup, hc, hcne, h, setupExitStatus, setupReportsStderr]

/-- Witness for C7: an environment with no variables at all halts the
process with status 1 and a report on standard error. -/
theorem missing_env_fatal_witness :
    moduleStart "nt" (fun _ => none) (fun _ => false) = .haltedBeforeDecode 1 true :=
  (missing_env_fatal (fun _ => none) (fun _ => false)).1 (Or.inl rfl)

/-- C8: with fewer than two positional arguments after the script name the
driver prints the usage message and exits with status 1; with a parsable
`gpu_id` and `N ≥ 1` URLs it spawns exactly one worker per URL, in order,
each tagged with the next freshly generated identifier (pairwise distinct
whenever the generator is injective) and carrying the parsed GPU id, and it
returns only after joining every spawned worker. -/
theorem driver_behavior (uuid_seq : Nat → String) (pyInt : String → Option Int)
    (argv : List String) :
    (argv.length < 3 →
      mainDriver uuid_seq pyInt argv = .usageExit 1 "Provide gpu ID and input URL(s).") ∧
    (∀ g : Int, 3 ≤ argv.length → pyInt (argv.getD 1 "") = some g →
      ∃ ws : List Worker, mainDriver uuid_seq pyInt argv = .ran ws ws ∧
        ws.length = argv.length - 2 ∧
        ws.map Worker.url = argv.drop 2 ∧
        (∀ w ∈ ws, w.gpu = g) ∧
        (Function.Injective uuid_seq → (ws.map Worker.tag).Nodup)) := by
  constructor
  · intro h
    simp [mainDriver, h]
  · intro g hlen hg
    have hlt : ¬ argv.length < 3 := Nat.not_lt.mpr hlen
    refine ⟨(argv.drop 2).enum.map (fun p => Worker.mk p.2 (uuid_seq p.1) g),
      ?_, ?_, ?_, ?_, ?_⟩
    · simp only [mainDriver, if_neg hlt, hg]
    · simp
    · rw [List.map_map]
      have hcomp : (Worker.url ∘ fun p : Nat × String => Worker.mk p.2 (uuid_seq p.1) g) =
          Prod.snd := rfl
      rw [hcomp, List.enum_map_snd]
    · intro w hw
      simp only [List.mem_map] at hw
      obtain ⟨p, _, rfl⟩ := hw
      rfl
    · intro hinj
      rw [List.map_map]
      have hcomp : (Worker.tag ∘ fun p : Nat × String => Worker.mk p.2 (uuid_seq p.1) g) =
          uuid_seq ∘ Prod.fst := rfl
      rw [hcomp, ← List.map_map, List.enum_map_fst]
      exact (List.nodup_range _).map hinj

/-- Witness for C8: gpu id 0 and two URLs spawn exactly two workers, both
joined. -/
theorem driver_behavior_witness :
    ∃ ws : List Worker,
      mainDriver (fun _ => "t") (fun _ => some 0) ["p", "0", "u1", "u2"] = .ran ws ws ∧
      ws.length = 2 ∧ ws.map Worker.url = ["u1", "u2"] ∧
      (∀ w ∈ ws, w.gpu = 0) ∧
      (Function.Injective (fun _ : Nat => "t") → (ws.map Worker.tag).Nodup) :=
  (driver_behavior (fun _ => "t") (fun _ => some 0) ["p", "0", "u1", "u2"]).2 0
    (by decide) rfl

end SampleDecodeRTSP
